import Mathlib

/-!
Verification of the `links-italia` repository: a recursive sitemap crawler
(`sitemap_extractor.py`) and a sitemap regenerator (`update_sitemap.py`).

Python strings are modelled as Lean `String`s, but the Python string methods
used by the code (`str.strip`, `str.endswith`, `str.split`) are re-implemented
over the underlying character list so that all definitions reduce inside the
kernel; Python's whitespace notion is modelled by `Char.isWhitespace`.
Python `set`s are modelled as duplicate-free lists with membership-guarded
insertion (`setAdd`), which preserves exactly the membership semantics the
code relies on.
-/

/-! ## Python string primitives -/

/-- Python `str.strip()` on a character list: drop whitespace from both ends. -/
def stripChars (l : List Char) : List Char :=
  ((l.dropWhile Char.isWhitespace).reverse.dropWhile Char.isWhitespace).reverse

/-- Python `s.strip()`. -/
def pyStrip (s : String) : String := ⟨stripChars s.data⟩

/-- Python `s.endswith(suffix)`. -/
def pyEndsWith (s suffix : String) : Bool := suffix.data.isSuffixOf s.data

/-- Python `set.add`: insert unless already present. -/
def setAdd (x : String) (l : List String) : List String :=
  if x ∈ l then l else x :: l

/-! ## The crawler `get_sitemap_urls` (sitemap_extractor.py)

The network is abstract: it maps each URL to a fetch outcome, which is either
a transport fault (connection error / timeout / non-2xx status, all caught by
the `except requests.exceptions.RequestException` arm), an empty response
body, an XML parse failure (the `except ET.ParseError` / `except Exception`
arms), or a parsed document.  A parsed document carries the `<loc>` elements
found by the namespaced search (`.//sitemap:loc`) and those found by the bare
search (`.//loc`); each element's text node is an `Option String` (`none`
when the element has no text node). -/

/-- A parsed sitemap document: text nodes of the `<loc>` elements found by
`root.findall('.//sitemap:loc', namespaces)` and by `root.findall('.//loc')`. -/
structure SitemapDoc where
  namespacedLocs : List (Option String)
  bareLocs : List (Option String)
deriving DecidableEq

/-- Outcome of `requests.get` + body inspection + XML parsing for one URL. -/
inductive FetchResult where
  | transportError : FetchResult
  | emptyBody : FetchResult
  | parseError : FetchResult
  | ok : SitemapDoc → FetchResult
deriving DecidableEq

/-- The abstract network: what fetching each sitemap URL yields. -/
def World : Type := String → FetchResult

/-- The state of one crawler run: the leaf-URL accumulator `all_urls`, the
cycle-guard set `processed_sitemaps`, and (model instrumentation) the trace of
URLs for which a network fetch was attempted, in order. -/
structure CrawlState where
  allUrls : List String
  processed : List String
  fetched : List String
deriving DecidableEq

/-- Embedding of `loc_elements = root.findall('.//sitemap:loc', namespaces);
if not loc_elements: loc_elements = root.findall('.//loc')`. -/
def selectLocs (doc : SitemapDoc) : List (Option String) :=
  if doc.namespacedLocs ≠ [] then doc.namespacedLocs else doc.bareLocs

/-- The `for loc_element in loc_elements:` loop of `get_sitemap_urls`,
parameterised by the function `rec` used to recurse on `.xml`-suffixed
locations: skip elements whose text is `None` or `""` (Python truthiness of
`loc_element.text`), strip the text, recurse when it ends in `.xml`, and
otherwise add it to the accumulator. -/
def crawlLocsWith (rec : String → CrawlState → CrawlState) :
    List (Option String) → CrawlState → CrawlState
  | [], s => s
  | t :: rest, s =>
    match t with
    | none => crawlLocsWith rec rest s
    | some txt =>
      if txt = "" then crawlLocsWith rec rest s
      else
        let url := pyStrip txt
        if pyEndsWith url ".xml" then crawlLocsWith rec rest (rec url s)
        else crawlLocsWith rec rest { s with allUrls := setAdd url s.allUrls }

/-- Embedding of `get_sitemap_urls(sitemap_url, all_urls, processed_sitemaps)`: return
immediately when the URL is already in the processed set; otherwise add it to
the processed set, attempt the fetch (recorded in `fetched`), return on any
fault (transport error, empty body, parse error), and walk the extracted
locations otherwise.  Python's unbounded recursion is indexed by fuel; claims
about termination are phrased as fuel-independence of the result once the
fuel exceeds the number of unvisited sitemap URLs. -/
def getSitemapUrls (w : World) : Nat → String → CrawlState → CrawlState
  | 0, _, s => s
  | fuel + 1, url, s =>
    if url ∈ s.processed then s
    else
      let s1 : CrawlState :=
        { s with processed := setAdd url s.processed, fetched := s.fetched ++ [url] }
      match w url with
      | FetchResult.ok doc => crawlLocsWith (getSitemapUrls w fuel) (selectLocs doc) s1
      | _ => s1
termination_by structural fuel => fuel

/-- The location loop with the actual recursive call at the given fuel. -/
def crawlLocs (w : World) (fuel : Nat) : List (Option String) → CrawlState → CrawlState :=
  crawlLocsWith (getSitemapUrls w fuel)

/-- The initial state of a run: `extracted_urls = set()`,
`processed_sitemap_links = set()`. -/
def emptyCrawlState : CrawlState := ⟨[], [], []⟩

-- concrete behaviour checks
def wTest : World := fun u =>
  if u = "a.xml" then FetchResult.ok ⟨[some "a.xml", some " https://x/p "], []⟩
  else FetchResult.transportError

example : (getSitemapUrls wTest 3 "a.xml" emptyCrawlState).fetched = ["a.xml"] := by decide
example : (getSitemapUrls wTest 3 "a.xml" emptyCrawlState).allUrls = ["https://x/p"] := by decide
example : (getSitemapUrls wTest 3 "a.xml" emptyCrawlState).processed = ["a.xml"] := by decide

/-! ## Invariant engine for the crawler

Every state update performed by `get_sitemap_urls` is one of two shapes:
marking a not-yet-processed URL (processed-set insert + fetch), or adding a
stripped non-`.xml` location to the accumulator.  Any predicate preserved by
both shapes is an invariant of the whole traversal. -/

theorem crawlLocsWith_inv (rec : String → CrawlState → CrawlState) (P : CrawlState → Prop)
    (hrec : ∀ u s, P s → P (rec u s))
    (hadd : ∀ u s, pyEndsWith u ".xml" = false → P s →
      P { s with allUrls := setAdd u s.allUrls }) :
    ∀ locs s, P s → P (crawlLocsWith rec locs s) := by
  intro locs
  induction locs with
  | nil => intro s hs; simpa [crawlLocsWith] using hs
  | cons t rest ih =>
    intro s hs
    match t with
    | none => simpa [crawlLocsWith] using ih s hs
    | some txt =>
      by_cases he : txt = ""
      · simpa [crawlLocsWith, he] using ih s hs
      · by_cases hx : pyEndsWith (pyStrip txt) ".xml" = true
        · simpa [crawlLocsWith, he, hx] using ih _ (hrec _ _ hs)
        · simpa [crawlLocsWith, he, hx] using
            ih _ (hadd _ _ (by simpa using hx) hs)

theorem getSitemapUrls_inv (w : World) (P : CrawlState → Prop)
    (hmark : ∀ url s, url ∉ s.processed → P s →
      P { s with processed := setAdd url s.processed, fetched := s.fetched ++ [url] })
    (hadd : ∀ u s, pyEndsWith u ".xml" = false → P s →
      P { s with allUrls := setAdd u s.allUrls }) :
    ∀ fuel url s, P s → P (getSitemapUrls w fuel url s) := by
  intro fuel
  induction fuel with
  | zero => intro url s hs; simpa [getSitemapUrls] using hs
  | succ fuel ih =>
    intro url s hs
    by_cases hp : url ∈ s.processed
    · simpa [getSitemapUrls, hp] using hs
    · cases hw : w url with
      | ok doc =>
        simp only [getSitemapUrls, hp, if_false, hw]
        exact crawlLocsWith_inv _ P (fun u s hs => ih u s hs) hadd _ _ (hmark _ _ hp hs)
      | transportError =>
        simpa [getSitemapUrls, hp, hw] using hmark _ _ hp hs
      | emptyBody =>
        simpa [getSitemapUrls, hp, hw] using hmark _ _ hp hs
      | parseError =>
        simpa [getSitemapUrls, hp, hw] using hmark _ _ hp hs

theorem mem_setAdd_self (x : String) (l : List String) : x ∈ setAdd x l := by
  by_cases h : x ∈ l <;> simp [setAdd, h]

theorem subset_setAdd (x : String) (l : List String) : l ⊆ setAdd x l := by
  intro a ha; by_cases h : x ∈ l <;> simp [setAdd, h, ha]

theorem mem_setAdd_iff (a x : String) (l : List String) :
    a ∈ setAdd x l ↔ a = x ∨ a ∈ l := by
  by_cases h : x ∈ l
  · simp only [setAdd, if_pos h]
    constructor
    · exact fun h' => Or.inr h'
    · rintro (rfl | h') <;> [exact h; exact h']
  · simp [setAdd, if_neg h]

theorem getSitemapUrls_processed_mono (w : World) (fuel : Nat) (url : String) (s : CrawlState) :
    s.processed ⊆ (getSitemapUrls w fuel url s).processed := by
  refine getSitemapUrls_inv w (fun s' => s.processed ⊆ s'.processed) ?_ ?_ fuel url s
    (List.Subset.refl _)
  · intro url' s' _ h
    exact h.trans (subset_setAdd url' s'.processed)
  · intro u s' _ h; exact h

theorem crawlLocs_processed_mono (w : World) (fuel : Nat) (locs : List (Option String))
    (s : CrawlState) : s.processed ⊆ (crawlLocs w fuel locs s).processed := by
  refine crawlLocsWith_inv _ (fun s' => s.processed ⊆ s'.processed) ?_ ?_ locs s
    (List.Subset.refl _)
  · intro u s' h
    exact h.trans (getSitemapUrls_processed_mono w fuel u s')
  · intro u s' _ h; exact h

theorem getSitemapUrls_fetched_extend (w : World) (fuel : Nat) (url : String) (s : CrawlState) :
    ∃ t, (getSitemapUrls w fuel url s).fetched = s.fetched ++ t := by
  refine getSitemapUrls_inv w (fun s' => ∃ t, s'.fetched = s.fetched ++ t) ?_ ?_ fuel url s
    ⟨[], by simp⟩
  · rintro url' s' _ ⟨t, ht⟩
    exact ⟨t ++ [url'], by simp [ht]⟩
  · rintro u s' _ ⟨t, ht⟩; exact ⟨t, ht⟩

theorem crawlLocs_fetched_extend (w : World) (fuel : Nat) (locs : List (Option String))
    (s : CrawlState) : ∃ t, (crawlLocs w fuel locs s).fetched = s.fetched ++ t := by
  refine crawlLocsWith_inv _ (fun s' => ∃ t, s'.fetched = s.fetched ++ t) ?_ ?_ locs s
    ⟨[], by simp⟩
  · rintro u s' ⟨t, ht⟩
    obtain ⟨t', ht'⟩ := getSitemapUrls_fetched_extend w fuel u s'
    exact ⟨t ++ t', by simp [ht', ht]⟩
  · rintro u s' _ ⟨t, ht⟩; exact ⟨t, ht⟩

/-- C9: when parsing a sitemap body, the namespaced search is used first, and
the bare (un-namespaced) `loc` search supplies the elements exactly when the
namespaced search found none, so a document with namespaced `loc` elements
takes nothing from the bare fallback. -/
theorem claim_C9 (doc : SitemapDoc) :
    (doc.namespacedLocs ≠ [] → selectLocs doc = doc.namespacedLocs)
    ∧ (doc.namespacedLocs = [] → selectLocs doc = doc.bareLocs) := by
  constructor <;> intro h <;> simp [selectLocs, h]

theorem claim_C9_witness :
    ((⟨[some "a"], [some "b"]⟩ : SitemapDoc).namespacedLocs ≠ [] ∧
      selectLocs ⟨[some "a"], [some "b"]⟩ = [some "a"])
    ∧ ((⟨[], [some "b"]⟩ : SitemapDoc).namespacedLocs = [] ∧
      selectLocs ⟨[], [some "b"]⟩ = [some "b"]) :=
  ⟨⟨by decide, (claim_C9 ⟨[some "a"], [some "b"]⟩).1 (by decide)⟩,
    ⟨rfl, (claim_C9 ⟨[], [some "b"]⟩).2 rfl⟩⟩

/-- World for C10: a single sitemap whose document has one `loc` element with
no text node and one whose text is whitespace only. -/
def w10 : World := fun u =>
  if u = "https://s/root.xml" then FetchResult.ok ⟨[none, some "   "], []⟩
  else FetchResult.transportError

/-- C10: a `loc` element whose text is non-empty but all-whitespace passes the
truthiness check, is stripped to `""`, does not end in `.xml`, and so the
empty string is added to the leaf accumulator; a `loc` element with no text
node at all is silently skipped. -/
theorem claim_C10 :
    getSitemapUrls w10 1 "https://s/root.xml" emptyCrawlState
      = ⟨[""], ["https://s/root.xml"], ["https://s/root.xml"]⟩ := by decide

/-- World for the C4 witness: a sitemap referencing itself, a nested sitemap
and leaf pages (with surrounding whitespace). -/
def w4 : World := fun u =>
  if u = "https://s/root.xml" then
    FetchResult.ok ⟨[some "https://s/root.xml", some " https://s/sub.xml ", some " https://s/p1 "], []⟩
  else if u = "https://s/sub.xml" then
    FetchResult.ok ⟨[], [some "https://s/p2", none]⟩
  else FetchResult.transportError

/-- C4: if no accumulated leaf URL ends in `.xml`, then after any traversal
step no leaf URL ends in `.xml` either: `.xml`-suffixed locations are only
recursed into, every other (stripped) location is added to the accumulator. -/
theorem claim_C4 (w : World) (fuel : Nat) (url : String) (s : CrawlState)
    (h : ∀ u ∈ s.allUrls, pyEndsWith u ".xml" = false) :
    ∀ u ∈ (getSitemapUrls w fuel url s).allUrls, pyEndsWith u ".xml" = false := by
  refine getSitemapUrls_inv w (fun s' => ∀ u ∈ s'.allUrls, pyEndsWith u ".xml" = false)
    ?_ ?_ fuel url s h
  · intro url' s' _ h' u hu; exact h' u hu
  · intro u s' hx h' v hv
    rcases (mem_setAdd_iff v u s'.allUrls).mp hv with rfl | hv'
    · exact hx
    · exact h' v hv'

theorem claim_C4_witness :
    (∀ u ∈ emptyCrawlState.allUrls, pyEndsWith u ".xml" = false)
    ∧ ∀ u ∈ (getSitemapUrls w4 2 "https://s/root.xml" emptyCrawlState).allUrls,
        pyEndsWith u ".xml" = false :=
  ⟨by simp [emptyCrawlState],
    claim_C4 w4 2 "https://s/root.xml" emptyCrawlState (by simp [emptyCrawlState])⟩

-- concrete behaviour check: what the C4 witness run accumulates
example : (getSitemapUrls w4 2 "https://s/root.xml" emptyCrawlState).allUrls
    = ["https://s/p1", "https://s/p2"] ∨ (getSitemapUrls w4 2 "https://s/root.xml" emptyCrawlState).allUrls
    = ["https://s/p2", "https://s/p1"] := by decide

/-- C3: the processed set grows monotonically along every execution path and
is never shrunk; every URL in the fetch trace is in the processed set (each
URL is added to the processed set strictly before its fetch is attempted, so
the guard already covers the URL during its own fetch); and a call on a fresh
URL with positive fuel puts exactly that URL next into the fetch trace and
into the processed set. -/
theorem claim_C3 (w : World) (fuel : Nat) (url : String) (s : CrawlState) :
    s.processed ⊆ (getSitemapUrls w fuel url s).processed
    ∧ ((∀ u ∈ s.fetched, u ∈ s.processed) →
        ∀ u ∈ (getSitemapUrls w fuel url s).fetched, u ∈ (getSitemapUrls w fuel url s).processed)
    ∧ (url ∉ s.processed → 0 < fuel →
        url ∈ (getSitemapUrls w fuel url s).processed
        ∧ ∃ t, (getSitemapUrls w fuel url s).fetched = s.fetched ++ url :: t) := by
  refine ⟨getSitemapUrls_processed_mono w fuel url s, ?_, ?_⟩
  · intro h
    exact getSitemapUrls_inv w (fun s' => ∀ u ∈ s'.fetched, u ∈ s'.processed)
      (by
        intro url' s' _ h' u hu
        rcases List.mem_append.mp hu with hu' | hu'
        · exact subset_setAdd url' s'.processed (h' u hu')
        · simp only [List.mem_singleton] at hu'
          subst hu'
          exact mem_setAdd_self u s'.processed)
      (by intro u s' _ h' v hv; exact h' v hv) fuel url s h
  · intro hp hf
    obtain ⟨f, rfl⟩ : ∃ f, fuel = f + 1 := ⟨fuel - 1, by omega⟩
    cases hw : w url with
    | ok doc =>
      simp only [getSitemapUrls, hp, if_false, hw]
      constructor
      · exact crawlLocs_processed_mono w f (selectLocs doc) _ (mem_setAdd_self url s.processed)
      · obtain ⟨t, ht⟩ := crawlLocs_fetched_extend w f (selectLocs doc)
          { s with processed := setAdd url s.processed, fetched := s.fetched ++ [url] }
        exact ⟨t, by simpa using ht⟩
    | transportError =>
      simp only [getSitemapUrls, hp, if_false, hw]
      exact ⟨mem_setAdd_self url s.processed, ⟨[], by simp⟩⟩
    | emptyBody =>
      simp only [getSitemapUrls, hp, if_false, hw]
      exact ⟨mem_setAdd_self url s.processed, ⟨[], by simp⟩⟩
    | parseError =>
      simp only [getSitemapUrls, hp, if_false, hw]
      exact ⟨mem_setAdd_self url s.processed, ⟨[], by simp⟩⟩

/-- World for the C3 witness. -/
def w3 : World := fun u =>
  if u = "https://s/root.xml" then
    FetchResult.ok ⟨[some "https://s/sub.xml", some "https://s/p1"], []⟩
  else FetchResult.emptyBody

theorem claim_C3_witness :
    emptyCrawlState.processed ⊆
        (getSitemapUrls w3 2 "https://s/root.xml" emptyCrawlState).processed
    ∧ (∀ u ∈ (getSitemapUrls w3 2 "https://s/root.xml" emptyCrawlState).fetched,
        u ∈ (getSitemapUrls w3 2 "https://s/root.xml" emptyCrawlState).processed)
    ∧ ("https://s/root.xml" ∈ (getSitemapUrls w3 2 "https://s/root.xml" emptyCrawlState).processed
        ∧ ∃ t, (getSitemapUrls w3 2 "https://s/root.xml" emptyCrawlState).fetched
            = emptyCrawlState.fetched ++ "https://s/root.xml" :: t) := by
  obtain ⟨h1, h2, h3⟩ := claim_C3 w3 2 "https://s/root.xml" emptyCrawlState
  exact ⟨h1, h2 (by simp [emptyCrawlState]), h3 (by decide) (by decide)⟩

/-- Transport faults, empty bodies and parse failures, as caught by the
`except` arms of `get_sitemap_urls`. -/
def FetchResult.isFault : FetchResult → Bool
  | .ok _ => false
  | _ => true

/-- C5: a fault (transport failure, empty body, or XML parse failure) at one
sitemap node makes that call return normally with the leaf accumulator and
fetch trace accumulated so far intact (only the cycle-guard mark for the
faulty URL is added), and the location loop then simply continues with the
remaining sibling locations. -/
theorem claim_C5 (w : World) (fuel : Nat) (url : String) (s : CrawlState) :
    ((w url).isFault = true → url ∉ s.processed →
      getSitemapUrls w (fuel + 1) url s
        = { s with processed := setAdd url s.processed, fetched := s.fetched ++ [url] })
    ∧ (∀ txt rest s', txt ≠ "" → pyEndsWith (pyStrip txt) ".xml" = true →
        crawlLocs w fuel (some txt :: rest) s'
          = crawlLocs w fuel rest (getSitemapUrls w fuel (pyStrip txt) s')) := by
  constructor
  · intro hf hp
    cases hw : w url with
    | ok doc => rw [hw] at hf; simp [FetchResult.isFault] at hf
    | transportError => simp [getSitemapUrls, hp, hw]
    | emptyBody => simp [getSitemapUrls, hp, hw]
    | parseError => simp [getSitemapUrls, hp, hw]
  · intro txt rest s' he hx
    simp [crawlLocs, crawlLocsWith, he, hx]

/-- World for the C5 witness: the root sitemap references a failing sub-sitemap
before a leaf page; the fault does not stop the sibling leaf. -/
def w5 : World := fun u =>
  if u = "https://s/root.xml" then
    FetchResult.ok ⟨[some "https://s/bad.xml", some "https://s/p1"], []⟩
  else FetchResult.transportError

theorem claim_C5_witness :
    ((w5 "https://s/bad.xml").isFault = true
      ∧ getSitemapUrls w5 1 "https://s/bad.xml" emptyCrawlState
          = { emptyCrawlState with
                processed := setAdd "https://s/bad.xml" emptyCrawlState.processed,
                fetched := emptyCrawlState.fetched ++ ["https://s/bad.xml"] })
    ∧ crawlLocs w5 0 [some "https://s/bad.xml", some "https://s/p1"] emptyCrawlState
        = crawlLocs w5 0 [some "https://s/p1"]
            (getSitemapUrls w5 0 (pyStrip "https://s/bad.xml") emptyCrawlState) := by
  obtain ⟨h1, h2⟩ := claim_C5 w5 0 "https://s/bad.xml" emptyCrawlState
  refine ⟨⟨by decide, h1 (by decide) (by decide)⟩, ?_⟩
  exact h2 "https://s/bad.xml" [some "https://s/p1"] emptyCrawlState (by decide) (by decide)

-- concrete behaviour check: the sibling leaf after the failing sub-sitemap is still collected
example : (getSitemapUrls w5 2 "https://s/root.xml" emptyCrawlState).allUrls
    = ["https://s/p1"] := by decide

/-! ## Termination of the traversal (C1)

Python's recursion has no fuel; its termination on a finite set of distinct
sitemap URLs is expressed here as fuel-independence: once the fuel exceeds
the number of not-yet-processed sitemap URLs of a universe that is closed
under the world's `.xml` references, the result no longer depends on the
fuel, i.e. the fuel-0 cutoff is never reached. -/

/-- The number of elements of `univ` not yet in the processed set `p`. -/
def newCount (univ : List String) (p : List String) : Nat :=
  (univ.filter (fun u => decide (u ∉ p))).length

/-- The universe `univ` contains every `.xml` location (stripped) that any document of the
world `w` can mention, i.e. every URL the crawler could ever recurse into. -/
def ClosedWorld (w : World) (univ : List String) : Prop :=
  ∀ u doc, w u = FetchResult.ok doc →
    ∀ txt, some txt ∈ selectLocs doc → txt ≠ "" →
      pyEndsWith (pyStrip txt) ".xml" = true → pyStrip txt ∈ univ

/-- All `.xml` locations (stripped) of a location list lie in `univ`. -/
def LocsInUniv (locs : List (Option String)) (univ : List String) : Prop :=
  ∀ txt, some txt ∈ locs → txt ≠ "" →
    pyEndsWith (pyStrip txt) ".xml" = true → pyStrip txt ∈ univ

theorem length_filter_mono {α : Type} (l : List α) (p q : α → Bool)
    (h : ∀ a, p a = true → q a = true) :
    (l.filter p).length ≤ (l.filter q).length :=
  (List.monotone_filter_right l h).length_le

theorem length_filter_lt {α : Type} (l : List α) (p q : α → Bool) (x : α)
    (h : ∀ a, p a = true → q a = true) (hx : x ∈ l)
    (hpx : p x = false) (hqx : q x = true) :
    (l.filter p).length < (l.filter q).length := by
  induction l with
  | nil => simp at hx
  | cons a t ih =>
    rcases List.mem_cons.mp hx with rfl | hxt
    · rw [List.filter_cons_of_neg (by simp [hpx]), List.filter_cons_of_pos (by simp [hqx])]
      exact Nat.lt_succ_of_le (length_filter_mono t p q h)
    · by_cases hpa : p a = true
      · rw [List.filter_cons_of_pos (by simp [hpa]), List.filter_cons_of_pos (by simp [h a hpa])]
        exact Nat.succ_lt_succ (ih hxt)
      · rw [List.filter_cons_of_neg (by simp [hpa])]
        by_cases hqa : q a = true
        · rw [List.filter_cons_of_pos (by simp [hqa])]
          exact Nat.lt_succ_of_lt (ih hxt)
        · rw [List.filter_cons_of_neg (by simp [hqa])]
          exact ih hxt

theorem newCount_le_of_subset (univ : List String) {p p' : List String}
    (h : p ⊆ p') : newCount univ p' ≤ newCount univ p := by
  refine length_filter_mono univ _ _ ?_
  intro a ha
  simp only [decide_eq_true_eq] at ha ⊢
  exact fun hc => ha (h hc)

theorem newCount_setAdd_lt (univ : List String) (p : List String) (url : String)
    (hu : url ∈ univ) (hp : url ∉ p) :
    newCount univ (setAdd url p) < newCount univ p := by
  refine length_filter_lt univ _ _ url ?_ hu ?_ ?_
  · intro a ha
    simp only [decide_eq_true_eq] at ha ⊢
    exact fun hc => ha (subset_setAdd url p hc)
  · simp [mem_setAdd_self]
  · simp [hp]

theorem crawlLocsWith_processed_subset_univ (rec : String → CrawlState → CrawlState)
    (univ : List String)
    (hrec : ∀ u s, u ∈ univ → s.processed ⊆ univ → (rec u s).processed ⊆ univ) :
    ∀ locs s, LocsInUniv locs univ → s.processed ⊆ univ →
      (crawlLocsWith rec locs s).processed ⊆ univ := by
  intro locs
  induction locs with
  | nil => intro s _ hs; simpa [crawlLocsWith] using hs
  | cons t rest ih =>
    intro s hl hs
    have hlrest : LocsInUniv rest univ :=
      fun txt ht he hx => hl txt (List.mem_cons_of_mem _ ht) he hx
    match t with
    | none => simpa [crawlLocsWith] using ih s hlrest hs
    | some txt =>
      by_cases he : txt = ""
      · simpa [crawlLocsWith, he] using ih s hlrest hs
      · by_cases hx : pyEndsWith (pyStrip txt) ".xml" = true
        · have hu : pyStrip txt ∈ univ := hl txt (List.mem_cons_self _ _) he hx
          simpa [crawlLocsWith, he, hx] using ih _ hlrest (hrec _ _ hu hs)
        · simpa [crawlLocsWith, he, hx] using
            ih { s with allUrls := setAdd (pyStrip txt) s.allUrls } hlrest hs

theorem getSitemapUrls_processed_subset_univ (w : World) (univ : List String)
    (hc : ClosedWorld w univ) :
    ∀ fuel url s, url ∈ univ → s.processed ⊆ univ →
      (getSitemapUrls w fuel url s).processed ⊆ univ := by
  intro fuel
  induction fuel with
  | zero => intro url s _ hs; simpa [getSitemapUrls] using hs
  | succ fuel ih =>
    intro url s hu hs
    by_cases hp : url ∈ s.processed
    · simpa [getSitemapUrls, hp] using hs
    · have hs1 : (setAdd url s.processed) ⊆ univ := by
        intro a ha
        rcases (mem_setAdd_iff a url s.processed).mp ha with rfl | h'
        · exact hu
        · exact hs h'
      cases hw : w url with
      | ok doc =>
        simp only [getSitemapUrls, hp, if_false, hw]
        exact crawlLocsWith_processed_subset_univ _ univ ih (selectLocs doc) _
          (fun txt ht he hx => hc url doc hw txt ht he hx) hs1
      | transportError => simpa [getSitemapUrls, hp, hw] using hs1
      | emptyBody => simpa [getSitemapUrls, hp, hw] using hs1
      | parseError => simpa [getSitemapUrls, hp, hw] using hs1

theorem crawlLocsWith_fuel_congr (w : World) (univ : List String)
    (hc : ClosedWorld w univ) (n : Nat)
    (ihg : ∀ url s, url ∈ univ → s.processed ⊆ univ → newCount univ s.processed < n →
      getSitemapUrls w n url s = getSitemapUrls w (n + 1) url s) :
    ∀ locs s, LocsInUniv locs univ → s.processed ⊆ univ → newCount univ s.processed < n →
      crawlLocsWith (getSitemapUrls w n) locs s
        = crawlLocsWith (getSitemapUrls w (n + 1)) locs s := by
  intro locs
  induction locs with
  | nil => intro s _ _ _; simp [crawlLocsWith]
  | cons t rest ih =>
    intro s hl hs hn
    have hlrest : LocsInUniv rest univ :=
      fun txt ht he hx => hl txt (List.mem_cons_of_mem _ ht) he hx
    match t with
    | none =>
      simpa [crawlLocsWith] using ih s hlrest hs hn
    | some txt =>
      by_cases he : txt = ""
      · simpa [crawlLocsWith, he] using ih s hlrest hs hn
      · by_cases hx : pyEndsWith (pyStrip txt) ".xml" = true
        · have hu : pyStrip txt ∈ univ := hl txt (List.mem_cons_self _ _) he hx
          have heq : getSitemapUrls w n (pyStrip txt) s
              = getSitemapUrls w (n + 1) (pyStrip txt) s := ihg _ s hu hs hn
          have hs' : (getSitemapUrls w (n + 1) (pyStrip txt) s).processed ⊆ univ :=
            getSitemapUrls_processed_subset_univ w univ hc (n + 1) _ s hu hs
          have hn' : newCount univ (getSitemapUrls w (n + 1) (pyStrip txt) s).processed < n :=
            lt_of_le_of_lt
              (newCount_le_of_subset univ (getSitemapUrls_processed_mono w (n + 1) _ s)) hn
          simp only [crawlLocsWith, he, hx, if_false, if_true, ite_false, ite_true]
          rw [heq]
          exact ih _ hlrest hs' hn'
        · simp only [crawlLocsWith, he, hx, if_false, ite_false]
          exact ih _ hlrest hs hn

theorem getSitemapUrls_fuel_step (w : World) (univ : List String)
    (hc : ClosedWorld w univ) :
    ∀ n url s, url ∈ univ → s.processed ⊆ univ → newCount univ s.processed < n →
      getSitemapUrls w n url s = getSitemapUrls w (n + 1) url s := by
  intro n
  induction n with
  | zero => intro url s _ _ h; exact absurd h (Nat.not_lt_zero _)
  | succ n ihn =>
    intro url s hu hs hn
    by_cases hp : url ∈ s.processed
    · simp [getSitemapUrls, hp]
    · have hs1 : (setAdd url s.processed) ⊆ univ := by
        intro a ha
        rcases (mem_setAdd_iff a url s.processed).mp ha with rfl | h'
        · exact hu
        · exact hs h'
      have hn1 : newCount univ (setAdd url s.processed) < n := by
        have := newCount_setAdd_lt univ s.processed url hu hp
        omega
      cases hw : w url with
      | ok doc =>
        simp only [getSitemapUrls, hp, if_false, hw]
        exact crawlLocsWith_fuel_congr w univ hc n ihn (selectLocs doc) _
          (fun txt ht he hx => hc url doc hw txt ht he hx) hs1 hn1
      | transportError => simp [getSitemapUrls, hp, hw]
      | emptyBody => simp [getSitemapUrls, hp, hw]
      | parseError => simp [getSitemapUrls, hp, hw]

theorem getSitemapUrls_fuel_ge (w : World) (univ : List String)
    (hc : ClosedWorld w univ) :
    ∀ k n url s, url ∈ univ → s.processed ⊆ univ → newCount univ s.processed < n →
      getSitemapUrls w n url s = getSitemapUrls w (n + k) url s := by
  intro k
  induction k with
  | zero => intro n url s _ _ _; rfl
  | succ k ihk =>
    intro n url s hu hs hn
    have h1 := ihk n url s hu hs hn
    have h2 := getSitemapUrls_fuel_step w univ hc (n + k) url s hu hs (by omega)
    rw [h1]; exact h2

-- concrete behaviour check: fuel stability on a finite world
example : getSitemapUrls w4 3 "https://s/root.xml" emptyCrawlState
    = getSitemapUrls w4 7 "https://s/root.xml" emptyCrawlState := by decide

/-- C1: (i) a call whose URL is already in the processed set returns
immediately, without fetching and without touching the state; (ii) starting
from any state where the fetch trace is duplicate-free and covered by the
processed set (in particular the initial empty state), the fetch trace stays
duplicate-free — each distinct sitemap URL is fetched at most once per run,
even across cyclic or duplicate references; (iii) on any world whose `.xml`
references stay inside a finite universe `univ`, the traversal terminates:
the result is independent of the fuel as soon as the fuel exceeds the number
of not-yet-processed URLs of `univ`, so the unbounded Python recursion
reaches a fixed point instead of revisiting cyclic locations. -/
theorem claim_C1 (w : World) (univ : List String) (fuel fuel₁ fuel₂ : Nat)
    (url : String) (s : CrawlState) :
    (url ∈ s.processed → getSitemapUrls w fuel url s = s)
    ∧ (s.fetched.Nodup → (∀ u ∈ s.fetched, u ∈ s.processed) →
        (getSitemapUrls w fuel url s).fetched.Nodup)
    ∧ (ClosedWorld w univ → url ∈ univ → s.processed ⊆ univ →
        newCount univ s.processed < fuel₁ → newCount univ s.processed < fuel₂ →
        getSitemapUrls w fuel₁ url s = getSitemapUrls w fuel₂ url s) := by
  refine ⟨?_, ?_, ?_⟩
  · intro h
    cases fuel with
    | zero => rfl
    | succ f => simp [getSitemapUrls, h]
  · intro hnd hcov
    have := getSitemapUrls_inv w
      (fun s' => s'.fetched.Nodup ∧ ∀ u ∈ s'.fetched, u ∈ s'.processed)
      (by
        rintro url' s' hp ⟨hnd', hcov'⟩
        constructor
        · have hnotin : url' ∉ s'.fetched := fun hmem => hp (hcov' url' hmem)
          simp [List.nodup_append, hnd', hnotin]
        · intro u hu
          rcases List.mem_append.mp hu with hu' | hu'
          · exact subset_setAdd url' s'.processed (hcov' u hu')
          · simp only [List.mem_singleton] at hu'
            subst hu'
            exact mem_setAdd_self u s'.processed)
      (by rintro u s' _ ⟨hnd', hcov'⟩; exact ⟨hnd', hcov'⟩)
      fuel url s ⟨hnd, hcov⟩
    exact this.1
  · intro hc hu hs h1 h2
    rcases Nat.le_total fuel₁ fuel₂ with h | h
    · have := getSitemapUrls_fuel_ge w univ hc (fuel₂ - fuel₁) fuel₁ url s hu hs h1
      rwa [Nat.add_sub_cancel' h] at this
    · have := getSitemapUrls_fuel_ge w univ hc (fuel₁ - fuel₂) fuel₂ url s hu hs h2
      rw [Nat.add_sub_cancel' h] at this
      exact this.symm

/-- World for the C1 witness: `a.xml` references itself, `b.xml` and a leaf;
`b.xml` references `a.xml` (a cycle) and another leaf. -/
def wc1 : World := fun u =>
  if u = "https://s/a.xml" then
    FetchResult.ok ⟨[some "https://s/a.xml", some "https://s/b.xml", some "https://s/p1"], []⟩
  else if u = "https://s/b.xml" then
    FetchResult.ok ⟨[some "https://s/a.xml", some "https://s/p2"], []⟩
  else FetchResult.transportError

/-- The finite universe of sitemap URLs mentioned by `wc1`. -/
def univ1 : List String := ["https://s/a.xml", "https://s/b.xml"]

theorem wc1_ok_cases (u : String) (doc : SitemapDoc)
    (hw : wc1 u = FetchResult.ok doc) :
    doc = ⟨[some "https://s/a.xml", some "https://s/b.xml", some "https://s/p1"], []⟩
    ∨ doc = ⟨[some "https://s/a.xml", some "https://s/p2"], []⟩ := by
  unfold wc1 at hw
  split at hw
  · exact Or.inl (by injection hw with h; exact h.symm)
  · split at hw
    · exact Or.inr (by injection hw with h; exact h.symm)
    · cases hw

theorem wc1_closed : ClosedWorld wc1 univ1 := by
  intro u doc hw txt ht he hx
  rcases wc1_ok_cases u doc hw with rfl | rfl
  · simp [selectLocs] at ht
    rcases ht with rfl | rfl | rfl
    · decide
    · decide
    · exact absurd hx (by decide)
  · simp [selectLocs] at ht
    rcases ht with rfl | rfl
    · decide
    · exact absurd hx (by decide)

theorem claim_C1_witness :
    (getSitemapUrls wc1 2 "https://s/a.xml"
        { emptyCrawlState with processed := ["https://s/a.xml"] }
      = { emptyCrawlState with processed := ["https://s/a.xml"] })
    ∧ (getSitemapUrls wc1 3 "https://s/a.xml" emptyCrawlState).fetched.Nodup
    ∧ getSitemapUrls wc1 3 "https://s/a.xml" emptyCrawlState
      = getSitemapUrls wc1 5 "https://s/a.xml" emptyCrawlState := by
  refine ⟨?_, ?_, ?_⟩
  · exact (claim_C1 wc1 univ1 2 0 0 "https://s/a.xml" _).1 (by decide)
  · exact (claim_C1 wc1 univ1 3 0 0 "https://s/a.xml" emptyCrawlState).2.1
      (by decide) (by decide)
  · exact (claim_C1 wc1 univ1 0 3 5 "https://s/a.xml" emptyCrawlState).2.2
      wc1_closed (by decide) (by intro a ha; simp [emptyCrawlState] at ha)
      (by decide) (by decide)

-- concrete behaviour check: the cyclic world is crawled fully, each sitemap fetched once
example : (getSitemapUrls wc1 3 "https://s/a.xml" emptyCrawlState).fetched
    = ["https://s/a.xml", "https://s/b.xml"] := by decide
example : (getSitemapUrls wc1 3 "https://s/a.xml" emptyCrawlState).allUrls
    = ["https://s/p1", "https://s/p2"] ∨
    (getSitemapUrls wc1 3 "https://s/a.xml" emptyCrawlState).allUrls
    = ["https://s/p2", "https://s/p1"] := by decide

/-! ## Batching (`__main__` of sitemap_extractor.py, C2)

`sorted_urls = sorted(list(extracted_urls))`;
`num_batches = (len(sorted_urls) + batch_size - 1) // batch_size`;
`current_batch_urls = sorted_urls[i*batch_size : i*batch_size + batch_size]`
for `i in range(num_batches)`, `batch_file_number = i + 1`. -/

/-- The configured batch size of the crawler. -/
def batch_size : Nat := 75

/-- The batch count `num_batches = (len(sorted_urls) + batch_size - 1) // batch_size`. -/
def numBatches (n b : Nat) : Nat := (n + b - 1) / b

/-- The slice `sorted_urls[i*batch_size : i*batch_size + batch_size]` for the 0-based
loop index `i` (Python slicing clips at the end of the list). -/
def batchSlice (l : List String) (b i : Nat) : List String :=
  (l.drop (i * b)).take b

/-- The batch contents produced by the `for i in range(num_batches)` loop. -/
def batchFiles (l : List String) (b : Nat) : List (List String) :=
  (List.range (numBatches l.length b)).map (batchSlice l b)

/-- The identifier `batch_file_number = i + 1`: the contiguous 1-based batch identifier. -/
def batchFileNumber (i : Nat) : Nat := i + 1

theorem numBatches_zero (b : Nat) (hb : 0 < b) : numBatches 0 b = 0 := by
  simp only [numBatches, Nat.zero_add]
  exact Nat.div_eq_of_lt (by omega)

theorem numBatches_pos_step (n b : Nat) (hb : 0 < b) (hn : 0 < n) :
    numBatches n b = numBatches (n - b) b + 1 := by
  rcases Nat.le_total n b with h | h
  · have h1 : (n + b - 1) / b = 1 := by
      apply Nat.div_eq_of_lt_le <;> omega
    have h2 : n - b = 0 := by omega
    have h3 : (b - 1) / b = 0 := Nat.div_eq_of_lt (by omega)
    simp [numBatches, h1, h2, h3]
  · have heq : n + b - 1 = (n - b + b - 1) + b := by omega
    simp only [numBatches, heq, Nat.add_div_right _ hb]

theorem batchFiles_flatten (l : List String) (b : Nat) (hb : 0 < b) :
    (batchFiles l b).flatten = l := by
  by_cases h0 : l.length = 0
  · have hl : l = [] := List.length_eq_zero.mp h0
    subst hl
    simp [batchFiles, numBatches_zero b hb]
  · have hk : numBatches l.length b = numBatches ((l.drop b).length) b + 1 := by
      rw [List.length_drop]
      exact numBatches_pos_step l.length b hb (by omega)
    have hhead : batchSlice l b 0 = l.take b := by
      simp [batchSlice]
    have htail : ∀ i, batchSlice l b (Nat.succ i) = batchSlice (l.drop b) b i := by
      intro i
      have hidx : Nat.succ i * b = b + i * b := by
        rw [Nat.succ_mul, Nat.add_comm]
      simp only [batchSlice, List.drop_drop, hidx]
    have ih := batchFiles_flatten (l.drop b) b hb
    rw [batchFiles, hk, List.range_succ_eq_map, List.map_cons, List.flatten_cons,
      List.map_map, hhead]
    have hmap : (List.range (numBatches (l.drop b).length b)).map (batchSlice l b ∘ Nat.succ)
        = (List.range (numBatches (l.drop b).length b)).map (batchSlice (l.drop b) b) := by
      apply List.map_congr_left
      intro i _
      exact htail i
    rw [hmap]
    rw [batchFiles] at ih
    rw [ih, List.take_append_drop]
termination_by l.length
decreasing_by simp only [List.length_drop]; omega

/-- C2: with `N = l.length` and any positive batch size `B`, the batching loop
produces exactly `(N + B - 1) / B = ⌈N/B⌉` batches (the ceiling is witnessed
by its Galois characterisation); the batch with 0-based index `i` — 1-based
identifier `i + 1` — is exactly the slice of the sorted sequence from `i*B` to
`i*B + B`; concatenating all batches gives back the input list, so no URL is
lost or duplicated and, for duplicate-free input, every URL occurs exactly
once across all batches; every batch has at most `B` elements and every batch
except possibly the last has exactly `B`. -/
theorem claim_C2 (l : List String) (b : Nat) (hb : 0 < b) :
    ((batchFiles l b).length = (l.length + b - 1) / b)
    ∧ (l.length ≤ numBatches l.length b * b
        ∧ ∀ k, l.length ≤ k * b → numBatches l.length b ≤ k)
    ∧ (∀ i, ∀ h : i < (batchFiles l b).length,
        (batchFiles l b).get ⟨i, h⟩ = (l.drop (i * b)).take b)
    ∧ (batchFiles l b).flatten = l
    ∧ (l.Nodup → ∀ u ∈ l, ((batchFiles l b).flatten).count u = 1)
    ∧ (∀ i, i + 1 < numBatches l.length b → (batchSlice l b i).length = b)
    ∧ (∀ i, (batchSlice l b i).length ≤ b) := by
  refine ⟨?_, ⟨?_, ?_⟩, ?_, batchFiles_flatten l b hb, ?_, ?_, ?_⟩
  · simp [batchFiles, numBatches]
  · have hdm := Nat.div_add_mod (l.length + b - 1) b
    have hml : (l.length + b - 1) % b < b := Nat.mod_lt _ hb
    have hc : numBatches l.length b * b = b * ((l.length + b - 1) / b) := by
      simp [numBatches, Nat.mul_comm]
    omega
  · intro k hk
    have hdiv : ((b - 1) + k * b) / b = (b - 1) / b + k := Nat.add_mul_div_right _ _ hb
    have hb1 : (b - 1) / b = 0 := Nat.div_eq_of_lt (by omega)
    have hle : (l.length + b - 1) ≤ (b - 1) + k * b := by omega
    have h2 := Nat.div_le_div_right (c := b) hle
    rw [hdiv, hb1] at h2
    simpa [numBatches] using h2
  · intro i h
    simp [batchFiles, batchSlice]
  · intro hnd u hu
    rw [batchFiles_flatten l b hb]
    exact List.count_eq_one_of_mem hnd hu
  · intro i hi
    have h2 : (i + 2) * b ≤ l.length + b - 1 := by
      have := (Nat.le_div_iff_mul_le hb).mp (show i + 2 ≤ (l.length + b - 1) / b from hi)
      exact this
    have hexp : (i + 2) * b = i * b + b + b := by ring
    simp only [batchSlice, List.length_take, List.length_drop]
    have : b ≤ l.length - i * b := by omega
    omega
  · intro i
    simp only [batchSlice, List.length_take, List.length_drop]
    omega

theorem claim_C2_witness :
    0 < 2
    ∧ (((batchFiles ["a", "b", "c"] 2).length = (3 + 2 - 1) / 2)
    ∧ (3 ≤ numBatches 3 2 * 2 ∧ ∀ k, 3 ≤ k * 2 → numBatches 3 2 ≤ k)
    ∧ (∀ i, ∀ h : i < (batchFiles ["a", "b", "c"] 2).length,
        (batchFiles ["a", "b", "c"] 2).get ⟨i, h⟩ = ((["a", "b", "c"]).drop (i * 2)).take 2)
    ∧ (batchFiles ["a", "b", "c"] 2).flatten = ["a", "b", "c"]
    ∧ ((["a", "b", "c"] : List String).Nodup → ∀ u ∈ (["a", "b", "c"] : List String),
        ((batchFiles ["a", "b", "c"] 2).flatten).count u = 1)
    ∧ (∀ i, i + 1 < numBatches 3 2 → (batchSlice ["a", "b", "c"] 2 i).length = 2)
    ∧ (∀ i, (batchSlice ["a", "b", "c"] 2 i).length ≤ 2)) :=
  ⟨by decide, claim_C2 ["a", "b", "c"] 2 (by decide)⟩

-- concrete behaviour checks: batching
example : batchFiles ["a", "b", "c"] 2 = [["a", "b"], ["c"]] := by decide
example : numBatches 0 75 = 0 := by decide

/-! ## The sitemap regenerator (update_sitemap.py, C6 and C7) -/

/-- The constant `base_url = "https://whik59140.github.io/links-italia"`. -/
def base_url : String := "https://whik59140.github.io/links-italia"

/-- The constant `lists_dir = "lists"`. -/
def lists_dir : String := "lists"

/-- Python `s.replace("\\\\", "/")` as written in `update_sitemap.py`: the
pattern is the two-character string of two backslashes, so every
non-overlapping two-backslash run (left to right) becomes one forward
slash. -/
def replaceDBS : List Char → List Char
  | [] => []
  | [c] => [c]
  | c :: d :: rest =>
    if c = '\\' ∧ d = '\\' then '/' :: replaceDBS rest
    else c :: replaceDBS (d :: rest)

/-- Python `loc_path.replace("\\\\", "/")` lifted to `String`. -/
def pyReplaceDoubleBackslash (s : String) : String := ⟨replaceDBS s.data⟩

/-- One file of the lists directory as the regenerator observes it: its name
(from `os.listdir`) and, when `os.path.getmtime` succeeds, its modification
date in ISO format (`none` models a raised exception, triggering the
fallback to today's date). -/
structure FileInfo where
  name : String
  mtimeDate : Option String
deriving DecidableEq

/-- The varying fields of one `<url>` template instance of the regenerator. -/
structure UrlEntry where
  loc : String
  lastmod : String
  changefreq : String
  priority : String
deriving DecidableEq

/-- The root `<url>` entry emitted first by `generate_sitemap_entries`. -/
def rootEntry (today : String) : UrlEntry :=
  ⟨base_url ++ "/", today, "weekly", "1.0"⟩

/-- The `<url>` entry for one `.md` file: its location is the joined
`f"{base_url}/{lists_dir}/{filename}"` with `.replace("\\\\", "/")` applied,
its last-modified date is the file's mtime date, or today on `getmtime`
failure. -/
def fileEntry (today : String) (f : FileInfo) : UrlEntry :=
  ⟨pyReplaceDoubleBackslash (base_url ++ "/" ++ lists_dir ++ "/" ++ f.name),
    f.mtimeDate.getD today, "monthly", "0.8"⟩

/-- Embedding of `generate_sitemap_entries()`: the directory state is `none` when the
lists directory does not exist (or is not a directory), otherwise the list
of files yielded by `os.listdir`.  The root entry always comes first; then
one entry per `.md` file. -/
def generate_sitemap_entries (today : String) (dir : Option (List FileInfo)) :
    List UrlEntry :=
  rootEntry today ::
    (match dir with
     | some files => (files.filter (fun f => pyEndsWith f.name ".md")).map (fileEntry today)
     | none => [])

/-- The location the C6 claim asserts for a file entry: the plain join of the
fixed base URL, the fixed subdirectory name and the file name. -/
def claimedFileLoc (f : FileInfo) : String :=
  base_url ++ "/" ++ lists_dir ++ "/" ++ f.name

/-- C6 counterexample: for a (legal on POSIX) file name containing a
two-backslash run, the emitted location is the joined path with that run
replaced by `/`, which differs from the claimed plain join of base URL,
subdirectory and file name. -/
theorem claim_C6_counterexample :
    (generate_sitemap_entries "2026-10-12" (some [⟨"a\\\\b.md", none⟩])).map UrlEntry.loc
      = [base_url ++ "/", "https://whik59140.github.io/links-italia/lists/a/b.md"]
    ∧ ("https://whik59140.github.io/links-italia/lists/a/b.md" : String)
      ≠ claimedFileLoc ⟨"a\\\\b.md", none⟩ := by decide

/-- C6 (amended): `generate_sitemap_entries` returns the root entry (today's
date, weekly, priority 1.0) first, followed by one entry per `.md` file of
the directory in listing order, each with monthly change frequency, priority
0.8, last-modified equal to the file's modification date (or today when it
cannot be read) and location equal to the base URL joined with the
subdirectory and file name, with two-backslash runs of the joined path
replaced by forward slashes; in particular a directory with exactly
`list-001.md` and `list-002.md` yields exactly three entries with the plain
joined locations. -/
theorem claim_C6_amended (today d1 d2 : String) (files : List FileInfo) :
    ((generate_sitemap_entries today (some files)).head?
        = some ⟨base_url ++ "/", today, "weekly", "1.0"⟩)
    ∧ ((generate_sitemap_entries today (some files)).tail
        = (files.filter (fun f => pyEndsWith f.name ".md")).map (fileEntry today))
    ∧ (∀ f : FileInfo,
        (fileEntry today f).loc
            = pyReplaceDoubleBackslash (base_url ++ "/" ++ lists_dir ++ "/" ++ f.name)
        ∧ (fileEntry today f).lastmod = f.mtimeDate.getD today
        ∧ (fileEntry today f).changefreq = "monthly"
        ∧ (fileEntry today f).priority = "0.8")
    ∧ generate_sitemap_entries today
          (some [⟨"list-001.md", some d1⟩, ⟨"list-002.md", some d2⟩])
        = [⟨base_url ++ "/", today, "weekly", "1.0"⟩,
            ⟨base_url ++ "/lists/list-001.md", d1, "monthly", "0.8"⟩,
            ⟨base_url ++ "/lists/list-002.md", d2, "monthly", "0.8"⟩] :=
  ⟨rfl, rfl, fun _ => ⟨rfl, rfl, rfl, rfl⟩, rfl⟩

/-- Python `sep.join(entries)`. -/
def pyJoin (sep : String) : List String → String
  | [] => ""
  | [x] => x
  | x :: y :: xs => x ++ sep ++ pyJoin sep (y :: xs)

/-- Python `s[:k]` on characters, modelling a write interrupted after `k`
characters. -/
def pyTake (s : String) (k : Nat) : String := ⟨s.data.take k⟩

/-- The fixed output path of `write_sitemap`. -/
def sitemap_path : String := "sitemap.xml"

/-- The string `sitemap_content`: XML declaration, the `urlset` open tag in the
sitemaps.org namespace, the entries joined by `os.linesep` (a parameter of
the model), and the closing tag. -/
def sitemap_content (linesep : String) (entries : List String) : String :=
  "<?xml version=\"1.0\" encoding=\"UTF-8\"?>\n<urlset xmlns=\"http://www.sitemaps.org/schemas/sitemap/0.9\">\n"
    ++ pyJoin linesep entries ++ "\n</urlset>\n"

/-- Outcome of the attempt to write `sitemap.xml`: success, or an `IOError`
raised after `k` characters were written.  POSIX/Python `open(path, "w")`
truncates the file before any write, so on failure the file holds exactly
the characters written so far. -/
inductive WriteOutcome where
  | ok : WriteOutcome
  | failAfter : Nat → WriteOutcome
deriving DecidableEq

/-- Result of one `write_sitemap` call: the content of `sitemap.xml` after
the call, whether the success message was printed, and whether an exception
escaped to the caller. -/
structure WriteResult where
  fileContent : String
  success : Bool
  raised : Bool
deriving DecidableEq

/-- Embedding of `write_sitemap(entries)` under the explicit file-system fault model: the
old on-disk content is truncated by `open("sitemap.xml", "w")`; on success
the full document is written; on an `IOError` after `k` characters the file
keeps exactly those characters, and the `except IOError` arm prints a
diagnostic instead of re-raising. -/
def write_sitemap (_oldContent : String) (linesep : String) (entries : List String)
    (o : WriteOutcome) : WriteResult :=
  match o with
  | WriteOutcome.ok => ⟨sitemap_content linesep entries, true, false⟩
  | WriteOutcome.failAfter k => ⟨pyTake (sitemap_content linesep entries) k, false, false⟩

/-- C7 counterexample: the write is not atomic — a failure after 5 characters
leaves `sitemap.xml` holding `"<?xml"`, which is neither the previous
on-disk content nor the full document, i.e. the previous state is destroyed
and partially overwritten. -/
theorem claim_C7_counterexample :
    (write_sitemap "OLDCONTENT" "\n" ["  <url></url>"] (WriteOutcome.failAfter 5)).fileContent
      = "<?xml"
    ∧ ("<?xml" : String) ≠ "OLDCONTENT"
    ∧ ("<?xml" : String) ≠ sitemap_content "\n" ["  <url></url>"] := by decide

/-- C7 (amended): `write_sitemap` writes the document directly (truncate,
then write — not atomically, so a failure can leave `sitemap.xml` truncated
to the prefix written so far), and any write failure (`IOError`) is reported
as a diagnostic and never raised to the caller. -/
theorem claim_C7_amended (old linesep : String) (entries : List String) (o : WriteOutcome) :
    ((write_sitemap old linesep entries o).raised = false)
    ∧ (o = WriteOutcome.ok →
        (write_sitemap old linesep entries o).fileContent = sitemap_content linesep entries)
    ∧ (∀ k, o = WriteOutcome.failAfter k →
        (write_sitemap old linesep entries o).fileContent
          = pyTake (sitemap_content linesep entries) k) := by
  refine ⟨?_, ?_, ?_⟩
  · cases o <;> rfl
  · rintro rfl; rfl
  · rintro k rfl; rfl

theorem claim_C7_amended_witness :
    ((write_sitemap "OLD" "\n" ["e"] WriteOutcome.ok).raised = false)
    ∧ (write_sitemap "OLD" "\n" ["e"] WriteOutcome.ok).fileContent = sitemap_content "\n" ["e"]
    ∧ (write_sitemap "OLD" "\n" ["e"] (WriteOutcome.failAfter 2)).fileContent
        = pyTake (sitemap_content "\n" ["e"]) 2 :=
  ⟨(claim_C7_amended "OLD" "\n" ["e"] WriteOutcome.ok).1,
    (claim_C7_amended "OLD" "\n" ["e"] WriteOutcome.ok).2.1 rfl,
    (claim_C7_amended "OLD" "\n" ["e"] (WriteOutcome.failAfter 2)).2.2 2 rfl⟩

-- concrete behaviour checks: regenerator
example : (generate_sitemap_entries "2026-10-12"
    (some [⟨"list-001.md", some "2024-01-01"⟩, ⟨"notes.txt", some "2024-01-01"⟩])).length
    = 2 := by decide
example : pyReplaceDoubleBackslash "a\\\\b" = "a/b" := by decide
example : pyReplaceDoubleBackslash "a\\b" = "a\\b" := by decide

/-! ## Batch link rendering (C8)

`link_text = url.split('//')[-1]` followed by
`bf.write(f"- [{link_text}]({url})\n")`. -/

/-- Python `url.split('//')`: split on each non-overlapping occurrence of the
two-character separator `//`, scanning left to right. -/
def splitDS : List Char → List (List Char)
  | [] => [[]]
  | [c] => [[c]]
  | c :: d :: rest =>
    if c = '/' ∧ d = '/' then [] :: splitDS rest
    else
      match splitDS (d :: rest) with
      | [] => [[c]]
      | seg :: segs => (c :: seg) :: segs

/-- Python `link_text = url.split('//')[-1]`: Python `[-1]` on the never-empty
result of `split`. -/
def linkText (url : String) : String := ⟨(splitDS url.data).getLastD []⟩

/-- The line written to the batch file for one URL. -/
def batchLine (url : String) : String :=
  "- [" ++ linkText url ++ "](" ++ url ++ ")\n"

/-- The label the C8 claim asserts: everything after the scheme's `//`
separator, i.e. after the FIRST occurrence of `//` in the URL. -/
def afterSchemeSep : List Char → List Char
  | [] => []
  | [_] => []
  | c :: d :: rest => if c = '/' ∧ d = '/' then rest else afterSchemeSep (d :: rest)

/-- True when `l` contains no occurrence of `//`. -/
def noDS : List Char → Bool
  | [] => true
  | [_] => true
  | c :: d :: rest => if c = '/' ∧ d = '/' then false else noDS (d :: rest)

theorem splitDS_of_noDS (l : List Char) (h : noDS l = true) : splitDS l = [l] := by
  match l with
  | [] => simp [splitDS]
  | [c] => simp [splitDS]
  | c :: d :: rest =>
    by_cases hc : c = '/' ∧ d = '/'
    · simp [noDS, hc] at h
    · have hrest : noDS (d :: rest) = true := by simpa [noDS, hc] using h
      have ih := splitDS_of_noDS (d :: rest) hrest
      simp [splitDS, hc, ih]

theorem splitDS_append (scheme rest : List Char) (h : noDS (scheme ++ ['/']) = true) :
    splitDS (scheme ++ '/' :: '/' :: rest) = scheme :: splitDS rest := by
  match scheme with
  | [] => simp [splitDS]
  | [c] =>
    by_cases hc : c = '/'
    · simp [noDS, hc] at h
    · simp [splitDS, hc]
  | c :: d :: s =>
    have hcd : ¬(c = '/' ∧ d = '/') := by
      intro hh
      simp [noDS, hh.1, hh.2] at h
    have hs : noDS ((d :: s) ++ ['/']) = true := by
      simpa [noDS, hcd] using h
    have ih := splitDS_append (d :: s) rest hs
    simp only [List.cons_append] at ih ⊢
    simp [splitDS, hcd, ih]

/-- C8 counterexample: for a URL whose path itself contains `//`, the batch
file's display label is everything after the LAST `//` (`split('//')[-1]`),
not everything after the scheme's `//` separator as claimed. -/
theorem claim_C8_counterexample :
    linkText "https://a.com/x//y" = "y"
    ∧ String.mk (afterSchemeSep ("https://a.com/x//y").data) = "a.com/x//y"
    ∧ ("y" : String) ≠ "a.com/x//y" := by decide

/-- C8 (amended): the display label is the final segment of splitting the URL
on `//` — i.e. everything after the last occurrence of `//`; when `//` occurs
exactly once (as the scheme separator), this is precisely the URL with its
scheme and leading slashes stripped.  The link target is always the full,
unmodified URL. -/
theorem claim_C8_amended (scheme rest : List Char)
    (h1 : noDS (scheme ++ ['/']) = true) (h2 : noDS rest = true) :
    linkText ⟨scheme ++ '/' :: '/' :: rest⟩ = ⟨rest⟩
    ∧ ∀ url : String, batchLine url = "- [" ++ linkText url ++ "](" ++ url ++ ")\n" := by
  constructor
  · simp only [linkText]
    rw [splitDS_append scheme rest h1, splitDS_of_noDS rest h2]
    rfl
  · intro url; rfl

theorem claim_C8_amended_witness :
    (noDS (("https:").data ++ ['/']) = true)
    ∧ (noDS ("example.com/page").data = true)
    ∧ linkText ⟨("https:").data ++ '/' :: '/' :: ("example.com/page").data⟩
        = ⟨("example.com/page").data⟩ :=
  ⟨by decide, by decide,
    (claim_C8_amended ("https:").data ("example.com/page").data
      (by decide) (by decide)).1⟩

-- concrete behaviour checks: link labels
example : linkText "https://example.com/page" = "example.com/page" := by decide
example : batchLine "https://e.com/p" = "- [e.com/p](https://e.com/p)\n" := by decide
